import Mathlib

/-!
# Verification of the OpenGL render manager core (v1_Pre-release.py)

Shallow embedding of the cache, physics and animation subsystems of
`src/v1_Pre-release.py`, with theorems settling the specification claims.

Conventions of the embedding:
* Python dicts / `OrderedDict`s become association lists `List (String × α)`
  kept in insertion (for `OrderedDict`: recency) order, front = oldest.
* Python numbers become exact rationals `ℚ`; the float constants `0.8`,
  `0.5`, `0.1` of the cache thresholds are rendered as exact rational
  comparisons multiplied out over `Int` (e.g. `usage + size > B * 0.8`
  becomes `10 * (usage + size) > 8 * B`), which agrees with the source on
  all integer byte counts.
* Calls to `glDeleteTextures` are recorded as a list of released texture
  ids returned alongside the new state, so that "released exactly once"
  becomes a statement about that list.
-/

namespace RenderMgr

/-- Lookup in an association list (Python `dict[key]` / `key in dict`). -/
def alookup (k : String) : List (String × α) → Option α
  | [] => none
  | (k', v) :: rest => if k' = k then some v else alookup k rest

/-- Remove the entry with the given key (Python `del dict[key]`). -/
def eraseKey (k : String) : List (String × α) → List (String × α)
  | [] => []
  | (k', v) :: rest => if k' = k then rest else (k', v) :: eraseKey k rest

/-- Dict assignment `dict[key] = v`: overwrite in place, or append. -/
def setKey (k : String) (v : α) : List (String × α) → List (String × α)
  | [] => [(k, v)]
  | (k', v') :: rest => if k' = k then (k, v) :: rest else (k', v') :: setKey k v rest

/-! ## LRUTextureCache (source lines 29–159) -/

/-- A `texture_data` dict as stored in `LRUTextureCache`: the fields the
cache itself reads (`'texture_id' in texture_data`, `'width'`, `'height'`);
each is optional because the source guards every access with `in`. -/
structure TexData where
  texture_id : Option Nat
  width : Option Nat
  height : Option Nat
deriving DecidableEq, Repr

/-- `_calculate_texture_size`: `width * height * 4` when both keys are
present, else `0` (source lines 130–135). -/
def calcSize (d : TexData) : Nat :=
  match d.width, d.height with
  | some w, some h => w * h * 4
  | _, _ => 0

/-- The `glDeleteTextures` call guarded by `'texture_id' in texture_data`:
the list of texture ids released for one entry. -/
def releaseOf (d : TexData) : List Nat :=
  match d.texture_id with
  | some i => [i]
  | none => []

/-- State of `LRUTextureCache` (source lines 32–46); `cache` is the
`OrderedDict`, front = least recently used.  The default
`cleanup_threshold = 0.8` is kept as the exact rational `8/10` inside
`put`. -/
structure LRUTextureCache where
  max_size_bytes : Nat
  cache : List (String × TexData)
  total_memory_usage : Int
  hits : Nat
  misses : Nat
  evictions : Nat
deriving DecidableEq, Repr

/-- `LRUTextureCache.__init__` with `max_size_mb` (source lines 32–46). -/
def initCache (max_size_mb : Nat) : LRUTextureCache :=
  { max_size_bytes := max_size_mb * 1024 * 1024
    cache := []
    total_memory_usage := 0
    hits := 0
    misses := 0
    evictions := 0 }

/-- Sum of the computed sizes of the entries currently in a cache map. -/
def sumSizes (l : List (String × TexData)) : Nat :=
  (l.map (fun e => calcSize e.2)).sum

/-- First phase of `_cleanup` (source lines 104–115): walk the cache in
LRU order collecting `keys_to_remove`, decrementing a running
`current_size` and counting evictions, breaking as soon as
`current_size <= target`. -/
def cleanupCollect (target : ℚ) :
    List (String × TexData) → Int → List String × Int × Nat
  | [], cur => ([], cur, 0)
  | (k, d) :: rest, cur =>
    if (cur : ℚ) ≤ target then ([], cur, 0)
    else
      let res := cleanupCollect target rest (cur - (calcSize d : Int))
      (k :: res.1, res.2.1, res.2.2 + 1)

/-- Second phase of `_cleanup` (source lines 117–126): for each collected
key, release its texture (if any) and delete it from the map. -/
def removeKeys : List (String × TexData) → List String →
    List (String × TexData) × List Nat
  | cache, [] => (cache, [])
  | cache, k :: ks =>
    let rel := match alookup k cache with
      | some d => releaseOf d
      | none => []
    let res := removeKeys (eraseKey k cache) ks
    (res.1, rel ++ res.2)

/-- `LRUTextureCache._cleanup(target_size)` (source lines 99–128):
early-return if already at or under target, otherwise evict an LRU
prefix; afterwards `total_memory_usage` is set to the running
`current_size`.  Returns the released texture ids. -/
def LRUTextureCache.cleanup (c : LRUTextureCache) (target : ℚ) :
    LRUTextureCache × List Nat :=
  if (c.total_memory_usage : ℚ) ≤ target then (c, [])
  else
    let col := cleanupCollect target c.cache c.total_memory_usage
    let rem := removeKeys c.cache col.1
    ({ c with
        cache := rem.1
        total_memory_usage := col.2.1
        evictions := c.evictions + col.2.2 }, rem.2)

/-- `LRUTextureCache.put(key, texture_data)` (source lines 48–72):
reject if `texture_size > max_size_bytes * 0.1` (exact form
`10 * size > B`); trigger `_cleanup(max_size_bytes * 0.5)` if
`total + size > max_size_bytes * 0.8` (exact form
`10 * (total + size) > 8 * B`); on re-insert subtract the old entry's
size first; finally append at the most-recently-used end. -/
def LRUTextureCache.put (c : LRUTextureCache) (key : String) (data : TexData) :
    Bool × LRUTextureCache × List Nat :=
  let texture_size := calcSize data
  if 10 * texture_size > c.max_size_bytes then (false, c, [])
  else
    let step1 :=
      if 10 * (c.total_memory_usage + (texture_size : Int)) >
          8 * (c.max_size_bytes : Int) then
        c.cleanup ((c.max_size_bytes : ℚ) / 2)
      else (c, [])
    let c1 := step1.1
    let c2 :=
      match alookup key c1.cache with
      | some old =>
        { c1 with
            total_memory_usage := c1.total_memory_usage - (calcSize old : Int)
            cache := eraseKey key c1.cache }
      | none => c1
    (true,
      { c2 with
          cache := c2.cache ++ [(key, data)]
          total_memory_usage := c2.total_memory_usage + (texture_size : Int) },
      step1.2)

/-- `LRUTextureCache.get(key)` (source lines 74–83): hit moves the key to
the most-recently-used end and bumps `hits`; miss bumps `misses`. -/
def LRUTextureCache.get (c : LRUTextureCache) (key : String) :
    Option TexData × LRUTextureCache :=
  match alookup key c.cache with
  | some d =>
    (some d,
      { c with cache := eraseKey key c.cache ++ [(key, d)], hits := c.hits + 1 })
  | none => (none, { c with misses := c.misses + 1 })

/-- `LRUTextureCache.remove(key)` (source lines 89–97): subtract the
entry's size and delete it.  The source performs no `glDeleteTextures`
here, so the released-ids component is always empty. -/
def LRUTextureCache.remove (c : LRUTextureCache) (key : String) :
    Bool × LRUTextureCache × List Nat :=
  match alookup key c.cache with
  | some d =>
    (true,
      { c with
          total_memory_usage := c.total_memory_usage - (calcSize d : Int)
          cache := eraseKey key c.cache }, [])
  | none => (false, c, [])

/-- `LRUTextureCache.clear()` (source lines 150–159): release every
entry's texture, empty the map, zero the usage (counters are kept). -/
def LRUTextureCache.clear (c : LRUTextureCache) : LRUTextureCache × List Nat :=
  ({ c with cache := [], total_memory_usage := 0 },
    (c.cache.map (fun e => releaseOf e.2)).flatten)

/-! ## Text texture cache (source lines 614–688, 747–772, 1746–1759) -/

/-- An entry of `self.text_texture_cache` as written by
`_render_text_optimized` (source lines 660–667). -/
structure TextEntry where
  texture_id : Nat
  width : Nat
  height : Nat
  last_used : ℚ
  created : ℚ
  font_info : String
deriving DecidableEq, Repr

/-- The eviction loop of `_cleanup_text_cache` (source lines 1756–1759):
pop entries off the front of the sorted list, releasing and deleting
each, while the cache is still over the limit.  Returns the surviving
cache and the removed entries (each removed entry's `texture_id` is
passed to `glDeleteTextures`, i.e. released, exactly when removed). -/
def evictOldest (maxSize : Nat) :
    List (String × TextEntry) → List (String × TextEntry) →
    List (String × TextEntry) × List (String × TextEntry)
  | [], cache => (cache, [])
  | e :: rest, cache =>
    if cache.length ≤ maxSize then (cache, [])
    else
      let res := evictOldest maxSize rest (eraseKey e.1 cache)
      (res.1, e :: res.2)

/-- `_cleanup_text_cache` (source lines 1746–1759): return unchanged if at
or under `text_cache_max_size`, otherwise sort the items by `last_used`
(Python's stable `sorted`) and evict from the oldest end until at or
under the limit. -/
def cleanup_text_cache (maxSize : Nat) (cache : List (String × TextEntry)) :
    List (String × TextEntry) × List (String × TextEntry) :=
  if cache.length ≤ maxSize then (cache, [])
  else
    evictOldest maxSize
      (List.insertionSort (fun a b => a.2.last_used ≤ b.2.last_used) cache)
      cache

/-- The cache-miss insertion path of `_render_text_optimized`
(source lines 660–670): store the new entry under its cache key, then run
`_cleanup_text_cache`. -/
def renderTextInsert (maxSize : Nat) (cache : List (String × TextEntry))
    (cache_key : String) (entry : TextEntry) :
    List (String × TextEntry) × List (String × TextEntry) :=
  cleanup_text_cache maxSize (setKey cache_key entry cache)

/-- The cache-invalidation step of `update_text_font`
(source lines 767–770): delete every entry whose key starts with
`text ++ "_"`.  The source performs no `glDeleteTextures` here, so the
released-ids component is always empty. -/
def update_text_font_invalidate (text : String)
    (cache : List (String × TextEntry)) :
    List (String × TextEntry) × List Nat :=
  (cache.filter (fun e => !((text ++ "_").data.isPrefixOf e.1.data)), [])

/-! ## Physics (source lines 1141–1153, 1394–1505) -/

/-- A `physics_tasks` entry as created by `add_physics_body`
(source lines 1403–1414). -/
structure PhysicsBody where
  body_type : String
  mass : ℚ
  friction : ℚ
  restitution : ℚ
  damping : ℚ
  velocity_x : ℚ
  velocity_y : ℚ
  collision_enabled : Bool
  affected_by_gravity : Bool
  enabled : Bool
deriving DecidableEq, Repr

/-- The task fields the physics integrator touches: `x`, `y`, and
`task.get('width'/'height', 0)` for boundary collision. -/
structure PTask where
  x : ℚ
  y : ℚ
  width : Option ℚ
  height : Option ℚ
deriving DecidableEq, Repr

/-- `self.physics_world` (source lines 1144–1152). -/
structure PhysicsWorld where
  gravity_x : ℚ
  gravity_y : ℚ
  pixels_per_meter : ℚ
  time_scale : ℚ
  enabled : Bool
  max_delta_time : ℚ
deriving DecidableEq, Repr

/-- `_init_physics_systems` defaults: gravity `(0, 9.8)`,
`pixels_per_meter = 100.0`, `time_scale = 1.0`, enabled,
`max_delta_time = 0.1` (source lines 1144–1152). -/
def initPhysicsWorld : PhysicsWorld :=
  { gravity_x := 0, gravity_y := 49/5, pixels_per_meter := 100
    time_scale := 1, enabled := true, max_delta_time := 1/10 }

/-- The physics-relevant projection of the manager's state. -/
structure PhysState where
  tasks : List (String × PTask)
  physics_tasks : List (String × PhysicsBody)
  physics_world : PhysicsWorld
  last_physics_update : ℚ
  original_window_width : ℚ
  original_window_height : ℚ
deriving DecidableEq, Repr

/-- `add_physics_body` (source lines 1394–1415): fail if the task is
unknown, else store a fresh body (zero velocity, enabled). -/
def add_physics_body (s : PhysState) (task_id : String) (body_type : String)
    (mass friction restitution damping : ℚ)
    (collision_enabled affected_by_gravity : Bool) : Bool × PhysState :=
  match alookup task_id s.tasks with
  | none => (false, s)
  | some _ =>
    (true,
      { s with
          physics_tasks := setKey task_id
                             ({ body_type := body_type, mass := mass
                                friction := friction
                                restitution := restitution, damping := damping
                                velocity_x := 0, velocity_y := 0
                                collision_enabled := collision_enabled
                                affected_by_gravity := affected_by_gravity
                                enabled := true }) s.physics_tasks })

/-- `apply_force` (source lines 1417–1429): fail on unknown or
non-dynamic bodies, else add `force / mass` to the velocity. -/
def apply_force (s : PhysState) (task_id : String) (force_x force_y : ℚ) :
    Bool × PhysState :=
  match alookup task_id s.physics_tasks with
  | none => (false, s)
  | some pd =>
    if pd.body_type ≠ "dynamic" then (false, s)
    else
      (true,
        { s with
            physics_tasks := setKey task_id
                               ({ pd with
                                   velocity_x := pd.velocity_x + force_x / pd.mass
                                   velocity_y := pd.velocity_y + force_y / pd.mass })
                               s.physics_tasks })

/-- `apply_impulse` (source lines 1431–1443): fail on unknown or
non-dynamic bodies, else add `impulse / mass` to the velocity. -/
def apply_impulse (s : PhysState) (task_id : String) (impulse_x impulse_y : ℚ) :
    Bool × PhysState :=
  match alookup task_id s.physics_tasks with
  | none => (false, s)
  | some pd =>
    if pd.body_type ≠ "dynamic" then (false, s)
    else
      (true,
        { s with
            physics_tasks := setKey task_id
                               ({ pd with
                                   velocity_x := pd.velocity_x + impulse_x / pd.mass
                                   velocity_y := pd.velocity_y + impulse_y / pd.mass })
                               s.physics_tasks })

/-- `_handle_boundary_collision` (source lines 1485–1505): clamp against
the four window edges, reflecting the velocity component scaled by the
restitution. -/
def handle_boundary_collision (wW wH : ℚ) (task : PTask) (pd : PhysicsBody) :
    PTask × PhysicsBody :=
  let task_width := task.width.getD 0
  let task_height := task.height.getD 0
  let px :=
    if task.x < 0 then
      ({ task with x := 0 },
        { pd with velocity_x := -pd.velocity_x * pd.restitution })
    else if task.x + task_width > wW then
      ({ task with x := wW - task_width },
        { pd with velocity_x := -pd.velocity_x * pd.restitution })
    else (task, pd)
  let task1 := px.1
  let pd1 := px.2
  if task1.y < 0 then
    ({ task1 with y := 0 },
      { pd1 with velocity_y := -pd1.velocity_y * pd1.restitution })
  else if task1.y + task_height > wH then
    ({ task1 with y := wH - task_height },
      { pd1 with velocity_y := -pd1.velocity_y * pd1.restitution })
  else (task1, pd1)

/-- The body of the `for task_id, physics_data in ...` loop of
`_update_physics` (source lines 1463–1483): skip bodies whose task is
gone or which are disabled, apply gravity, damping, position
integration, then optional boundary collision.  Note the source never
consults `body_type` here. -/
def stepBody (world : PhysicsWorld) (wW wH : ℚ) (delta_time : ℚ)
    (st : PhysState) (task_id : String) : PhysState :=
  match alookup task_id st.physics_tasks, alookup task_id st.tasks with
  | some pd, some task =>
    if pd.enabled then
      let pd :=
        if pd.affected_by_gravity then
          { pd with
              velocity_x :=
                pd.velocity_x + world.gravity_x * delta_time * world.time_scale
              velocity_y :=
                pd.velocity_y + world.gravity_y * delta_time * world.time_scale }
        else pd
      let pd :=
        { pd with
            velocity_x := pd.velocity_x * pd.damping
            velocity_y := pd.velocity_y * pd.damping }
      let task :=
        { task with
            x := task.x +
              pd.velocity_x * delta_time * world.pixels_per_meter * world.time_scale
            y := task.y +
              pd.velocity_y * delta_time * world.pixels_per_meter * world.time_scale }
      let fin :=
        if pd.collision_enabled then handle_boundary_collision wW wH task pd
        else (task, pd)
      { st with
          tasks := setKey task_id fin.1 st.tasks
          physics_tasks := setKey task_id fin.2 st.physics_tasks }
    else st
  | _, _ => st

/-- `_update_physics(current_time)` (source lines 1449–1484): no-op if the
world is disabled; otherwise compute the clamped delta, record
`last_physics_update`, and step every attached body in order. -/
def update_physics (current_time : ℚ) (s : PhysState) : PhysState :=
  if !s.physics_world.enabled then s
  else
    let delta_time :=
      min (current_time - s.last_physics_update) s.physics_world.max_delta_time
    let s1 := { s with last_physics_update := current_time }
    (s1.physics_tasks.map Prod.fst).foldl
      (stepBody s.physics_world s.original_window_width s.original_window_height
        delta_time)
      s1

/-! ## Animations (source lines 1103–1118, 1507–1584)

Task attribute values are numbers, tuples/lists of numbers, or anything
else (which the interpolation snaps to the target); this mirrors the
`isinstance` dispatch of source lines 1562–1570.  The transcendental
functions `math.sin`, `math.cos` and the constant `math.pi` used by the
sine easings are modelled abstractly by a `MathEnv` parameter — no claim
depends on their values.  A completion callback is modelled as a list of
`animate_task` calls, the re-entrant capability the specification
discusses for completion callbacks. -/

/-- A task attribute value as seen by the animation interpolator. -/
inductive PValue where
  | num (q : ℚ)
  | tup (l : List ℚ)
  | other (s : String)
deriving DecidableEq, Repr

/-- One `animate_task(task_id, duration, properties, easing, delay)` call
performed by a completion callback (scheduled animations carry no
nested callback of their own). -/
structure CallbackAct where
  task_id : String
  duration : ℚ
  properties : List (String × PValue)
  easing : String
  delay : ℚ
deriving DecidableEq, Repr

/-- An entry of `self.animations` as created by `animate_task`
(source lines 1525–1534). -/
structure Animation where
  task_id : String
  start_time : ℚ
  duration : ℚ
  start_values : List (String × PValue)
  target_values : List (String × PValue)
  easing : String
  on_complete : Option (List CallbackAct)
  completed : Bool
deriving DecidableEq, Repr

/-- The animation-relevant projection of the manager's state: the task
attribute dicts and the active animation dict. -/
structure AnimState where
  tasks : List (String × List (String × PValue))
  animations : List (String × Animation)
deriving DecidableEq, Repr

/-- Abstract model of `math.sin`, `math.cos`, `math.pi`. -/
structure MathEnv where
  msin : ℚ → ℚ
  mcos : ℚ → ℚ
  mpi : ℚ

/-- `_create_easing_functions` (source lines 1103–1118): the fixed easing
table, an association list in the source's order. -/
def create_easing_functions (env : MathEnv) : List (String × (ℚ → ℚ)) :=
  [("linear", fun t => t),
   ("ease_in_quad", fun t => t * t),
   ("ease_out_quad", fun t => t * (2 - t)),
   ("ease_in_out_quad", fun t =>
      if t < 1/2 then 2 * t * t else -1 + (4 - 2 * t) * t),
   ("ease_in_cubic", fun t => t * t * t),
   ("ease_out_cubic", fun t => (t - 1) ^ 3 + 1),
   ("ease_in_out_cubic", fun t =>
      if t < 1/2 then 4 * t * t * t
      else (t - 1) * (2 * t - 2) * (2 * t - 2) + 1),
   ("ease_in_sine", fun t => 1 - env.mcos (t * env.mpi / 2)),
   ("ease_out_sine", fun t => env.msin (t * env.mpi / 2)),
   ("ease_in_out_sine", fun t => -(env.mcos (env.mpi * t) - 1) / 2),
   ("ease_in_back", fun t =>
      t * t * ((1.70158 + 1) * t - 1.70158)),
   ("ease_out_back", fun t =>
      (t - 1) ^ 2 * ((1.70158 + 1) * (t - 1) + 1.70158) + 1)]

/-- `self.easing_functions.get(easing, self.easing_functions['linear'])`
(source line 1553).  The inner fallback is unreachable because
`"linear"` is always in the table. -/
def lookupEasing (env : MathEnv) (easing : String) : ℚ → ℚ :=
  match alookup easing (create_easing_functions env) with
  | some f => f
  | none =>
    match alookup "linear" (create_easing_functions env) with
    | some f => f
    | none => fun t => t

/-- The `start_values` collection loop of `animate_task`
(source lines 1517–1523): `none` models the early `return False` when a
requested property is absent from the task. -/
def collectStartValues (task : List (String × PValue)) :
    List (String × PValue) → Option (List (String × PValue))
  | [] => some []
  | (p, _) :: rest =>
    match alookup p task with
    | some v => (collectStartValues task rest).map (fun l => (p, v) :: l)
    | none => none

/-- `animate_task` (source lines 1507–1536): fail on unknown task or
missing property; otherwise register the animation under the id
`f"{task_id}_{time.time()}"` (here rendered with the model clock `now`)
with `start_time = now + delay`. -/
def animate_task (now : ℚ) (s : AnimState) (task_id : String) (duration : ℚ)
    (properties : List (String × PValue)) (easing : String)
    (on_complete : Option (List CallbackAct)) (delay : ℚ) : Bool × AnimState :=
  match alookup task_id s.tasks with
  | none => (false, s)
  | some task =>
    match collectStartValues task properties with
    | none => (false, s)
    | some start_values =>
      let animation_id := task_id ++ "_" ++ toString now
      (true,
        { s with
            animations := setKey animation_id
                            ({ task_id := task_id
                               start_time := now + delay
                               duration := duration
                               start_values := start_values
                               target_values := properties
                               easing := easing
                               on_complete := on_complete
                               completed := false }) s.animations })

/-- Per-property interpolation (source lines 1562–1570): numbers lerp,
tuples lerp element-wise over the shorter length, anything else snaps
to the target value. -/
def interpValue (start_value target_value : PValue) (eased : ℚ) : PValue :=
  match start_value, target_value with
  | .num a, .num b => .num (a + (b - a) * eased)
  | .tup a, .tup b =>
    .tup ((List.range (min a.length b.length)).map
      (fun i => a.getD i 0 + (b.getD i 0 - a.getD i 0) * eased))
  | _, _ => target_value

/-- The `for prop, start_value in start_values` loop
(source lines 1559–1572); a property missing from `target_values` is
impossible for animations built by `animate_task` and is skipped. -/
def applyAnimProps (anim : Animation) (eased : ℚ)
    (task : List (String × PValue)) : List (String × PValue) :=
  anim.start_values.foldl
    (fun tk pv =>
      match alookup pv.1 anim.target_values with
      | some tv => setKey pv.1 (interpValue pv.2 tv eased) tk
      | none => tk)
    task

/-- Run a completion callback: each recorded `animate_task` call in turn,
its Boolean result discarded (source line 1578 ignores it). -/
def runCallback (now : ℚ) (acts : List CallbackAct) (s : AnimState) : AnimState :=
  acts.foldl
    (fun st act =>
      (animate_task now st act.task_id act.duration act.properties act.easing
        none act.delay).2)
    s

/-- The body of the `for anim_id, animation in self.animations.items()`
loop (source lines 1542–1581): skip completed / not-yet-started
animations, interpolate, and on progress 1.0 mark completed, run the
callback, and record the id for the deletion pass. -/
def processAnim (env : MathEnv) (now : ℚ) (acc : AnimState × List String)
    (anim_id : String) : AnimState × List String :=
  let s := acc.1
  match alookup anim_id s.animations with
  | none => acc
  | some anim =>
    if anim.completed then acc
    else if now < anim.start_time then acc
    else
      let elapsed := now - anim.start_time
      let progress := min (elapsed / anim.duration) 1
      let eased_progress := lookupEasing env anim.easing progress
      let s1 :=
        match alookup anim.task_id s.tasks with
        | some task =>
          { s with
              tasks := setKey anim.task_id
                         (applyAnimProps anim eased_progress task) s.tasks }
        | none => s
      if progress ≥ 1 then
        let s2 :=
          { s1 with
              animations := setKey anim_id ({ anim with completed := true })
                              s1.animations }
        let s3 :=
          match anim.on_complete with
          | some acts => runCallback now acts s2
          | none => s2
        (s3, acc.2 ++ [anim_id])
      else (s1, acc.2)

/-- CPython iteration over `self.animations.items()`: entries are yielded
in order, and every advance of the iterator first checks that the dict
size is unchanged, raising `RuntimeError` otherwise — including the
final advance that would end the loop. -/
def updateAnimationsGo (env : MathEnv) (now : ℚ) (startSize : Nat) :
    List String → AnimState × List String →
    Except String (AnimState × List String)
  | [], acc => .ok acc
  | anim_id :: rest, acc =>
    let acc' := processAnim env now acc anim_id
    if acc'.1.animations.length = startSize then
      updateAnimationsGo env now startSize rest acc'
    else .error "RuntimeError: dictionary changed size during iteration"

/-- `_update_animations(current_time)` (source lines 1538–1584): iterate
the live animation dict (with CPython's size guard), then delete the
animations completed this pass. -/
def update_animations (env : MathEnv) (now : ℚ) (s : AnimState) :
    Except String AnimState :=
  match updateAnimationsGo env now s.animations.length
      (s.animations.map Prod.fst) (s, []) with
  | .ok acc =>
    .ok { acc.1 with
            animations := acc.2.foldl (fun m k => eraseKey k m) acc.1.animations }
  | .error e => .error e

/-! ## Operation sequences on the texture cache -/

/-- One operation on `LRUTextureCache` (the `_cleanup` entry covers the
direct call in `cleanup_unused_textures`, source line 887). -/
inductive CacheOp where
  | put (key : String) (data : TexData)
  | get (key : String)
  | remove (key : String)
  | clear
  | cleanup (target : ℚ)

/-- Apply one cache operation, discarding its outputs. -/
def applyOp (c : LRUTextureCache) : CacheOp → LRUTextureCache
  | .put key data => (c.put key data).2.1
  | .get key => (c.get key).2
  | .remove key => (c.remove key).2.1
  | .clear => c.clear.1
  | .cleanup target => (c.cleanup target).1

/-- The bookkeeping invariant of the texture cache: the tracked
`total_memory_usage` equals the sum of the computed sizes of the entries
currently in the map. -/
def usageInvariant (c : LRUTextureCache) : Prop :=
  c.total_memory_usage = (sumSizes c.cache : Int)

/-! ## Concrete states used to evaluate the model -/

/-- The physics body created for `dynBodyState` below. -/
def dynBody : PhysicsBody :=
  { body_type := "dynamic", mass := 1, friction := 3/10, restitution := 1/2
    damping := 1, velocity_x := 0, velocity_y := 0
    collision_enabled := false, affected_by_gravity := true, enabled := true }

/-- A texture cache with byte budget `1000000` holding one `400×500`
entry (800000 bytes), so that any further insertion crosses the 80%
cleanup threshold. -/
def evictDemoCache : LRUTextureCache :=
  { max_size_bytes := 1000000
    cache := [("old", ⟨some 1, some 400, some 500⟩)]
    total_memory_usage := 800000
    hits := 0, misses := 0, evictions := 0 }

/-- Degenerate instantiation of the abstract `math` functions; used only
to evaluate concrete runs (nothing settled here touches the sine
easings' values). -/
def mathEnv0 : MathEnv := ⟨fun _ => 0, fun _ => 0, 0⟩

/-- A physics state holding one task `"box"` at the origin, default
world, clock at `0`, default `960×540` window. -/
def physState0 : PhysState :=
  { tasks := [("box", ⟨0, 0, none, none⟩)]
    physics_tasks := []
    physics_world := initPhysicsWorld
    last_physics_update := 0
    original_window_width := 960
    original_window_height := 540 }

/-- `physState0` after `add_physics_body("box", body_type='static')` with
the source's default arguments (mass 1, damping 0.99, collision and
gravity enabled). -/
def staticBodyState : PhysState :=
  (add_physics_body physState0 "box" "static" 1 (3/10) (1/2) (99/100)
    true true).2

/-- `physState0` after `add_physics_body("box", 'dynamic', mass=1,
damping=1.0, collision_enabled=False)` — the C8 scenario with damping
and boundary effects excluded. -/
def dynBodyState : PhysState :=
  (add_physics_body physState0 "box" "dynamic" 1 (3/10) (1/2) 1
    false true).2

/-- A one-entry texture cache whose entry holds the GPU texture id `7`
(so removing it must release `7` exactly once). -/
def texCacheDemo : LRUTextureCache :=
  { max_size_bytes := 104857600
    cache := [("img", ⟨some 7, some 64, some 64⟩)]
    total_memory_usage := 16384
    hits := 0, misses := 0, evictions := 0 }

/-- A one-entry text-texture cache for the text `"hello"` holding GPU
texture id `5`. -/
def textCacheDemo : List (String × TextEntry) :=
  [("hello_16_c", ⟨5, 10, 10, 0, 0, "fi"⟩)]

/-- A two-entry text cache (keys `"a"`, `"b"`, last used at times 5
and 1) used to exercise the count-bounded eviction. -/
def textCachePair : List (String × TextEntry) :=
  [("a", ⟨1, 1, 1, 5, 0, "f"⟩), ("b", ⟨2, 1, 1, 1, 0, "f"⟩)]

/-- A text-cache entry last used at time 3. -/
def entryC : TextEntry := ⟨3, 1, 1, 3, 0, "f"⟩

/-- An animation state with one task `"obj"` carrying a numeric
attribute `"x"`. -/
def animTasks0 : List (String × List (String × PValue)) :=
  [("obj", [("x", PValue.num 0)])]

/-- A completion callback that schedules a follow-up animation on the
same task (animation chaining). -/
def chainAct : CallbackAct := ⟨"obj", 1, [("x", PValue.num 5)], "linear", 0⟩

/-- `animTasks0` after `animate_task("obj", 1.0, {x: 100}, 'linear',
on_complete=<schedule follow-up>)` at clock `0`: one active animation
that will complete at clock `1` and then re-enter the scheduler. -/
def chainAnimState : AnimState :=
  (animate_task 0 ⟨animTasks0, []⟩ "obj" 1 [("x", PValue.num 100)] "linear"
    (some [chainAct]) 0).2

end RenderMgr

namespace RenderMgr

/-- The animation id minted at clock `0` for task `"obj"`. -/
theorem animId_at_0 : "obj" ++ "_" ++ toString (0 : ℚ) = "obj_0" := rfl

/-- The animation id minted at clock `1` for task `"obj"`. -/
theorem animId_at_1 : "obj" ++ "_" ++ toString (1 : ℚ) = "obj_1" := rfl

/-- The two minted animation ids are distinct keys. -/
theorem animId_0_ne_1 : ("obj_0" = "obj_1") = False := by decide

/-- C1: the claim says a physics step never integrates a body whose
`body_type` is `'static'`.  The code disagrees: `_update_physics`
(source lines 1463–1483) never consults `body_type`, so a static body
attached with the default arguments is integrated like any dynamic one.
Concretely, stepping `staticBodyState` by `dt = 0.1` gives the static
body velocity `0.98 * 0.99 = 0.9702` and moves its task from `y = 0` to
`y = 9.702`. -/
theorem static_body_is_integrated :
    (alookup "box" staticBodyState.physics_tasks).map PhysicsBody.body_type
      = some "static"
    ∧ (alookup "box" (update_physics (1/10) staticBodyState).physics_tasks).map
        PhysicsBody.velocity_y = some (9702/10000)
    ∧ (alookup "box" (update_physics (1/10) staticBodyState).tasks).map PTask.y
      = some (9702/1000) := by
  refine ⟨rfl, ?_, ?_⟩ <;>
    norm_num [staticBodyState, physState0, add_physics_body, initPhysicsWorld,
      update_physics, stepBody, handle_boundary_collision, alookup, setKey]

/-- C8: a dynamic body with mass 1, zero initial velocity, world gravity
`(0, 9.8)`, `pixels_per_meter = 100`, `time_scale = 1`, damping factor 1
and collision disabled, stepped once with `dt = 0.1`, ends with
`velocity_y = 0.98` and its task's `y` increased by `9.8` (from 0 to
`49/5`). -/
theorem one_step_gravity_integration :
    (alookup "box" (update_physics (1/10) dynBodyState).physics_tasks).map
        PhysicsBody.velocity_y = some (98/100)
    ∧ (alookup "box" (update_physics (1/10) dynBodyState).tasks).map PTask.y
      = some (49/5) := by
  constructor <;>
    norm_num [dynBodyState, physState0, add_physics_body, initPhysicsWorld,
      update_physics, stepBody, handle_boundary_collision, alookup, setKey]

/-- C2: the claim says the animation-update pass tolerates completion
callbacks that schedule new animations.  The code disagrees:
`_update_animations` iterates the live `self.animations` dict
(source line 1542), so when the completion callback of the finished
animation in `chainAnimState` calls `animate_task`, the dict grows
mid-iteration and CPython raises
`RuntimeError: dictionary changed size during iteration`, which nothing
in `run()` catches — the frame is aborted. -/
theorem reentrant_schedule_raises :
    update_animations mathEnv0 1 chainAnimState
      = .error "RuntimeError: dictionary changed size during iteration" := by
  norm_num [chainAnimState, chainAct, animTasks0, animate_task,
    collectStartValues, alookup, setKey, update_animations,
    updateAnimationsGo, processAnim, lookupEasing, create_easing_functions,
    applyAnimProps, interpValue, runCallback, mathEnv0, animId_at_0,
    animId_at_1, animId_0_ne_1]

/-- C3: the claim says every removal path of the texture caches releases
the underlying GPU texture exactly once.  The code disagrees on two
paths: `LRUTextureCache.remove` (source lines 89–97) deletes the entry —
here the entry holding texture id 7 — issuing no `glDeleteTextures` at
all, and the font-invalidation path of `update_text_font`
(source lines 767–770) likewise deletes matching text-cache entries with
no release.  Both removed entries' textures are released zero times. -/
theorem removal_paths_release_nothing :
    releaseOf (⟨some 7, some 64, some 64⟩ : TexData) = [7]
    ∧ (texCacheDemo.remove "img").1 = true
    ∧ (texCacheDemo.remove "img").2.1.cache = []
    ∧ (texCacheDemo.remove "img").2.2 = ([] : List Nat)
    ∧ update_text_font_invalidate "hello" textCacheDemo = ([], []) :=
  ⟨rfl, rfl, rfl, rfl, by decide⟩

/-- C6: a `put` of a resource whose computed byte size exceeds 10% of the
byte budget (`texture_size > max_size_bytes * 0.1`, exactly
`10 * size > B`) returns failure and leaves the cache — entry map,
`total_memory_usage`, and every counter — exactly as before, releasing
nothing. -/
theorem oversized_put_rejected (c : LRUTextureCache) (key : String)
    (data : TexData) (h : 10 * calcSize data > c.max_size_bytes) :
    c.put key data = (false, c, []) := by
  unfold LRUTextureCache.put
  simp [h]

/-- C6 witness: a `512×512` RGBA texture (1 MiB) against a 1 MB budget. -/
theorem oversized_put_rejected_witness :
    10 * calcSize (⟨some 9, some 512, some 512⟩ : TexData)
        > (initCache 1).max_size_bytes
    ∧ (initCache 1).put "big" ⟨some 9, some 512, some 512⟩
        = (false, initCache 1, []) :=
  ⟨by decide, oversized_put_rejected (initCache 1) "big" _ (by decide)⟩

/-- C7: `apply_force` and `apply_impulse` are extensionally equal; both
fail leaving the state unchanged when the task has no body or a
non-dynamic body, and on a dynamic body both add `delta / mass` to the
velocity and succeed. -/
theorem force_impulse_equivalent (s : PhysState) (task_id : String)
    (dx dy : ℚ) :
    apply_force s task_id dx dy = apply_impulse s task_id dx dy
    ∧ (alookup task_id s.physics_tasks = none →
        apply_force s task_id dx dy = (false, s))
    ∧ (∀ pd, alookup task_id s.physics_tasks = some pd →
        pd.body_type ≠ "dynamic" → apply_force s task_id dx dy = (false, s))
    ∧ (∀ pd, alookup task_id s.physics_tasks = some pd →
        pd.body_type = "dynamic" →
        apply_force s task_id dx dy =
          (true,
            { s with
                physics_tasks := setKey task_id
                                   ({ pd with
                                       velocity_x := pd.velocity_x + dx / pd.mass
                                       velocity_y := pd.velocity_y + dy / pd.mass })
                                   s.physics_tasks })) := by
  refine ⟨rfl, ?_, ?_, ?_⟩
  · intro h
    simp [apply_force, h]
  · intro pd h hnd
    simp [apply_force, h, hnd]
  · intro pd h hd
    simp [apply_force, h, hd]

/-- C7 witness: the dynamic body of `dynBodyState` with delta `(3, 4)`. -/
theorem force_impulse_equivalent_witness :
    apply_force dynBodyState "box" 3 4 = apply_impulse dynBodyState "box" 3 4
    ∧ alookup "box" dynBodyState.physics_tasks = some dynBody
    ∧ apply_force dynBodyState "box" 3 4
      = (true,
          { dynBodyState with
              physics_tasks := setKey "box"
                                 ({ dynBody with
                                     velocity_x := dynBody.velocity_x + 3 / dynBody.mass
                                     velocity_y := dynBody.velocity_y + 4 / dynBody.mass })
                                 dynBodyState.physics_tasks }) :=
  ⟨(force_impulse_equivalent dynBodyState "box" 3 4).1, rfl,
    (force_impulse_equivalent dynBodyState "box" 3 4).2.2.2 dynBody rfl rfl⟩

/-- Size bookkeeping: `sumSizes` over a cons. -/
theorem sumSizes_cons (e : String × TexData) (l : List (String × TexData)) :
    sumSizes (e :: l) = calcSize e.2 + sumSizes l := by
  simp [sumSizes]

/-- Size bookkeeping: `sumSizes` over an append. -/
theorem sumSizes_append (a b : List (String × TexData)) :
    sumSizes (a ++ b) = sumSizes a + sumSizes b := by
  simp [sumSizes]

/-- Looking up a present key splits the size sum at that entry. -/
theorem sumSizes_lookup_erase (k : String) (d : TexData) :
    ∀ l : List (String × TexData), alookup k l = some d →
      sumSizes l = calcSize d + sumSizes (eraseKey k l) := by
  intro l h
  induction l with
  | nil => simp [alookup] at h
  | cons e rest ih =>
    obtain ⟨k', v⟩ := e
    by_cases hk : k' = k
    · rw [alookup, if_pos hk] at h
      obtain rfl : v = d := Option.some.inj h
      simp [eraseKey, hk, sumSizes_cons]
    · rw [alookup, if_neg hk] at h
      have hr := ih h
      simp only [eraseKey, if_neg hk, sumSizes_cons, hr]
      omega

/-- The collection phase of `_cleanup` removes a prefix of the LRU order:
it returns the keys of `l.take n` for some `n`, the running size
`cur - sumSizes (l.take n)`, and `n` evictions, and it stops only once
the running size is at or under target or the cache is exhausted. -/
theorem cleanupCollect_spec (target : ℚ) :
    ∀ (l : List (String × TexData)) (cur : Int),
      ∃ n, n ≤ l.length
        ∧ cleanupCollect target l cur
            = ((l.take n).map Prod.fst, cur - (sumSizes (l.take n) : Int), n)
        ∧ (((cur - (sumSizes (l.take n) : Int) : Int) : ℚ) ≤ target
            ∨ n = l.length) := by
  intro l
  induction l with
  | nil =>
    intro cur
    refine ⟨0, Nat.le_refl 0, ?_, Or.inr rfl⟩
    simp [cleanupCollect, sumSizes]
  | cons e rest ih =>
    intro cur
    by_cases hle : (cur : ℚ) ≤ target
    · refine ⟨0, Nat.zero_le _, ?_, Or.inl ?_⟩
      · simp [cleanupCollect, hle, sumSizes]
      · simpa [sumSizes]
    · obtain ⟨n, hn, heq, hdisj⟩ := ih (cur - (calcSize e.2 : Int))
      refine ⟨n + 1, Nat.succ_le_succ hn, ?_, ?_⟩
      · simp only [cleanupCollect, if_neg hle, heq, List.take_succ_cons,
          List.map_cons, sumSizes_cons]
        refine Prod.ext rfl (Prod.ext ?_ rfl)
        push_cast
        ring
      · rcases hdisj with h | h
        · left
          have harith :
              cur - (sumSizes ((e :: rest).take (n + 1)) : Int)
                = cur - (calcSize e.2 : Int) - (sumSizes (rest.take n) : Int) := by
            simp only [List.take_succ_cons, sumSizes_cons]
            push_cast
            ring
          rw [harith]
          exact h
        · right
          simp [h]

/-- The deletion phase of `_cleanup` applied to the keys of a prefix
removes exactly that prefix. -/
theorem removeKeys_take (n : Nat) :
    ∀ l : List (String × TexData),
      (removeKeys l ((l.take n).map Prod.fst)).1 = l.drop n := by
  induction n with
  | zero =>
    intro l
    simp [removeKeys]
  | succ m ih =>
    intro l
    cases l with
    | nil => simp [removeKeys]
    | cons e rest =>
      obtain ⟨k, d⟩ := e
      simp only [List.take_succ_cons, List.map_cons, removeKeys, alookup,
        if_pos rfl, eraseKey]
      exact ih rest

/-- `_cleanup` preserves the usage invariant: the new tracked total is
exactly the size sum of the surviving entries. -/
theorem cleanup_usageInvariant (c : LRUTextureCache) (target : ℚ)
    (hinv : usageInvariant c) : usageInvariant (c.cleanup target).1 := by
  unfold LRUTextureCache.cleanup
  by_cases hle : (c.total_memory_usage : ℚ) ≤ target
  · simpa [hle]
  · obtain ⟨n, hn, heq, _⟩ :=
      cleanupCollect_spec target c.cache c.total_memory_usage
    simp only [if_neg hle, heq, removeKeys_take, usageInvariant]
    rw [usageInvariant] at hinv
    have hsplit : sumSizes c.cache
        = sumSizes (c.cache.take n) + sumSizes (c.cache.drop n) := by
      conv_lhs => rw [← List.take_append_drop n c.cache]
      exact sumSizes_append _ _
    rw [hinv, hsplit]
    push_cast
    ring

/-- Under the usage invariant, `_cleanup` leaves the tracked total at or
under any nonnegative target (if the loop exhausts the cache, the total
reaches zero). -/
theorem cleanup_total_le (c : LRUTextureCache) (target : ℚ)
    (hinv : usageInvariant c) (ht : 0 ≤ target) :
    ((c.cleanup target).1.total_memory_usage : ℚ) ≤ target := by
  unfold LRUTextureCache.cleanup
  by_cases hle : (c.total_memory_usage : ℚ) ≤ target
  · simp [hle]
  · obtain ⟨n, hn, heq, hdisj⟩ :=
      cleanupCollect_spec target c.cache c.total_memory_usage
    simp only [if_neg hle, heq]
    rcases hdisj with h | h
    · exact h
    · rw [usageInvariant] at hinv
      rw [h, List.take_length, hinv]
      simpa using ht

/-- `put` preserves the usage invariant. -/
theorem put_usageInvariant (c : LRUTextureCache) (key : String)
    (data : TexData) (hinv : usageInvariant c) :
    usageInvariant (c.put key data).2.1 := by
  unfold LRUTextureCache.put
  by_cases hbig : 10 * calcSize data > c.max_size_bytes
  · simpa [hbig]
  · have main : ∀ c1 : LRUTextureCache, usageInvariant c1 →
        ∀ c2 : LRUTextureCache,
          c2 = (match alookup key c1.cache with
            | some old =>
              { c1 with
                  total_memory_usage :=
                    c1.total_memory_usage - (calcSize old : Int)
                  cache := eraseKey key c1.cache }
            | none => c1) →
          usageInvariant
            { c2 with
                cache := c2.cache ++ [(key, data)]
                total_memory_usage :=
                  c2.total_memory_usage + (calcSize data : Int) } := by
      intro c1 hinv1 c2 hc2
      have hone : ∀ l : List (String × TexData),
          sumSizes (l ++ [(key, data)]) = sumSizes l + calcSize data := by
        intro l
        rw [sumSizes_append, sumSizes_cons]
        simp [sumSizes]
      rcases hl : alookup key c1.cache with _ | old
      · rw [hl] at hc2
        subst hc2
        rw [usageInvariant] at hinv1 ⊢
        simp only [hone]
        omega
      · rw [hl] at hc2
        subst hc2
        have hsplit := sumSizes_lookup_erase key old c1.cache hl
        rw [usageInvariant] at hinv1 ⊢
        simp only [hone]
        omega
    by_cases htrig : 10 * (c.total_memory_usage + (calcSize data : Int)) >
        8 * (c.max_size_bytes : Int)
    · simpa [hbig, htrig] using
        main (c.cleanup ((c.max_size_bytes : ℚ) / 2)).1
          (cleanup_usageInvariant c _ hinv) _ rfl
    · simpa [hbig, htrig] using main c hinv _ rfl

/-- Every cache operation preserves the usage invariant. -/
theorem applyOp_usageInvariant (c : LRUTextureCache) (op : CacheOp)
    (hinv : usageInvariant c) : usageInvariant (applyOp c op) := by
  cases op with
  | put key data => exact put_usageInvariant c key data hinv
  | get key =>
    unfold applyOp LRUTextureCache.get
    rcases hl : alookup key c.cache with _ | d
    · simpa [hl] using hinv
    · have hsplit := sumSizes_lookup_erase key d c.cache hl
      have hone : sumSizes (eraseKey key c.cache ++ [(key, d)])
          = sumSizes (eraseKey key c.cache) + calcSize d := by
        rw [sumSizes_append, sumSizes_cons]
        simp [sumSizes]
      rw [usageInvariant] at hinv ⊢
      simp only [hl, hone]
      omega
  | remove key =>
    unfold applyOp LRUTextureCache.remove
    rcases hl : alookup key c.cache with _ | d
    · simpa [hl] using hinv
    · have hsplit := sumSizes_lookup_erase key d c.cache hl
      rw [usageInvariant] at hinv ⊢
      simp only [hl]
      omega
  | clear =>
    simp [applyOp, LRUTextureCache.clear, usageInvariant, sumSizes]
  | cleanup target => exact cleanup_usageInvariant c target hinv

/-- C4: after every finite sequence of `put`, `get`, `remove`, `clear`
and `_cleanup` operations starting from a fresh cache, the tracked
`total_memory_usage` equals the sum of the computed byte sizes
(`width × height × 4`) of the entries currently in the cache map. -/
theorem usage_matches_live_entries (max_size_mb : Nat) (ops : List CacheOp) :
    usageInvariant (ops.foldl applyOp (initCache max_size_mb)) := by
  have h : ∀ c, usageInvariant c → usageInvariant (ops.foldl applyOp c) := by
    induction ops with
    | nil => intro c hc; simpa
    | cons op rest ih =>
      intro c hc
      exact ih _ (applyOp_usageInvariant c op hc)
  exact h _ (by simp [usageInvariant, initCache, sumSizes])

/-- C5: a `put` that passes the 10% size check and triggers eviction
(`usage + size > 0.8 · B`, exactly `10 · (usage + size) > 8 · B`) leaves
the tracked usage at most `0.5 · B` plus the byte size of the
just-inserted entry. -/
theorem eviction_put_usage_bound (c : LRUTextureCache) (key : String)
    (data : TexData) (hinv : usageInvariant c)
    (hfit : ¬ 10 * calcSize data > c.max_size_bytes)
    (htrig : 10 * (c.total_memory_usage + (calcSize data : Int)) >
      8 * (c.max_size_bytes : Int)) :
    ((c.put key data).2.1.total_memory_usage : ℚ)
      ≤ (c.max_size_bytes : ℚ) / 2 + (calcSize data : ℚ) := by
  unfold LRUTextureCache.put
  have htarget : (0 : ℚ) ≤ (c.max_size_bytes : ℚ) / 2 := by positivity
  have hc1 :=
    cleanup_total_le c ((c.max_size_bytes : ℚ) / 2) hinv htarget
  rcases hl : alookup key (c.cleanup ((c.max_size_bytes : ℚ) / 2)).1.cache
    with _ | old
  · simp only [hfit, if_false, htrig, if_true, hl]
    push_cast
    linarith
  · simp only [hfit, if_false, htrig, if_true, hl]
    have hold : (0 : ℚ) ≤ (calcSize old : ℚ) := by positivity
    push_cast
    linarith

/-- C5 witness: budget 1000000, an 800000-byte resident entry, and a
40000-byte insertion - `800000 + 40000 > 800000 = 0.8 · B` triggers
eviction, and the resulting usage obeys the bound. -/
theorem eviction_put_usage_bound_witness :
    usageInvariant evictDemoCache
    ∧ ¬ 10 * calcSize (⟨some 2, some 100, some 100⟩ : TexData) >
        evictDemoCache.max_size_bytes
    ∧ 10 * (evictDemoCache.total_memory_usage +
        (calcSize (⟨some 2, some 100, some 100⟩ : TexData) : Int)) >
        8 * (evictDemoCache.max_size_bytes : Int)
    ∧ ((evictDemoCache.put "new" ⟨some 2, some 100, some 100⟩).2.1.total_memory_usage : ℚ)
        ≤ (evictDemoCache.max_size_bytes : ℚ) / 2
          + (calcSize (⟨some 2, some 100, some 100⟩ : TexData) : ℚ) :=
  ⟨by unfold usageInvariant; decide, by decide, by decide,
    eviction_put_usage_bound evictDemoCache "new" _
      (by unfold usageInvariant; decide) (by decide) (by decide)⟩

/-- `eraseKey` yields a sublist of the original association list. -/
theorem eraseKey_sublist (k : String) :
    ∀ l : List (String × α), (eraseKey k l).Sublist l := by
  intro l
  induction l with
  | nil => simp [eraseKey]
  | cons e rest ih =>
    obtain ⟨k', v⟩ := e
    by_cases hk : k' = k
    · simp only [eraseKey, if_pos hk]
      exact List.sublist_cons_self _ _
    · simp only [eraseKey, if_neg hk]
      exact ih.cons₂ _

/-- With no duplicate keys, a list containing the pair `e` is a
permutation of `e` consed onto the key-erased list. -/
theorem perm_eraseKey_of_mem :
    ∀ (cache : List (String × TextEntry)) (e : String × TextEntry),
      (cache.map Prod.fst).Nodup → e ∈ cache →
      cache.Perm (e :: eraseKey e.1 cache) := by
  intro cache
  induction cache with
  | nil =>
    intro e _ he
    simp at he
  | cons f rest ih =>
    intro e hnodup he
    rw [List.map_cons, List.nodup_cons] at hnodup
    by_cases hf : f = e
    · subst hf
      obtain ⟨k, v⟩ := f
      simp [eraseKey]
    · have hemem : e ∈ rest := by
        rcases List.mem_cons.mp he with h | h
        · exact absurd h.symm hf
        · exact h
      have hkne : f.1 ≠ e.1 := by
        intro hkeq
        exact hnodup.1 (hkeq ▸ List.mem_map_of_mem Prod.fst hemem)
      obtain ⟨k, v⟩ := f
      simp only [eraseKey, if_neg hkne]
      exact ((ih e hnodup.2 hemem).cons (k, v)).trans
        (List.Perm.swap e (k, v) (eraseKey e.1 rest))

/-- Keys after `setKey` come from the old keys plus the new key. -/
theorem setKey_keys_subset (k : String) (v : α) :
    ∀ l : List (String × α),
      (setKey k v l).map Prod.fst ⊆ k :: l.map Prod.fst := by
  intro l
  induction l with
  | nil => simp [setKey]
  | cons e rest ih =>
    obtain ⟨k', v'⟩ := e
    by_cases hk : k' = k
    · subst hk
      simp [setKey]
    · simp only [setKey, if_neg hk, List.map_cons]
      intro x hx
      rcases List.mem_cons.mp hx with h | h
      · subst h
        simp
      · rcases List.mem_cons.mp (ih h) with h2 | h2
        · subst h2
          simp
        · simp [h2]

/-- `setKey` preserves nodup keys (dict assignment cannot duplicate). -/
theorem setKey_keys_nodup (k : String) (v : α) :
    ∀ l : List (String × α), (l.map Prod.fst).Nodup →
      ((setKey k v l).map Prod.fst).Nodup := by
  intro l
  induction l with
  | nil =>
    intro _
    simp [setKey]
  | cons e rest ih =>
    obtain ⟨k', v'⟩ := e
    intro hnodup
    rw [List.map_cons, List.nodup_cons] at hnodup
    by_cases hk : k' = k
    · subst hk
      have hset : setKey k' v ((k', v') :: rest) = (k', v) :: rest := by
        simp [setKey]
      rw [hset, List.map_cons, List.nodup_cons]
      exact ⟨hnodup.1, hnodup.2⟩
    · simp only [setKey, if_neg hk, List.map_cons, List.nodup_cons]
      refine ⟨?_, ih hnodup.2⟩
      intro hmem
      rcases List.mem_cons.mp (setKey_keys_subset k v rest hmem) with h | h
      · exact hk h
      · exact hnodup.1 h

/-- The survivors of the text-cache eviction loop come from the cache it
started with. -/
theorem evictOldest_subset (maxSize : Nat) :
    ∀ sorted cache : List (String × TextEntry),
      (evictOldest maxSize sorted cache).1 ⊆ cache := by
  intro sorted
  induction sorted with
  | nil =>
    intro cache
    simp [evictOldest]
  | cons e rest ih =>
    intro cache
    by_cases hlen : cache.length ≤ maxSize
    · simp [evictOldest, hlen]
    · simp only [evictOldest, if_neg hlen]
      exact fun x hx =>
        (eraseKey_sublist e.1 cache).subset (ih (eraseKey e.1 cache) hx)

/-- Walking a sorted permutation of the cache, the eviction loop stops
with at most `maxSize` entries, and every evicted entry's `last_used`
is at most that of every survivor. -/
theorem evictOldest_spec (maxSize : Nat) :
    ∀ sorted cache : List (String × TextEntry),
      sorted.Perm cache →
      (cache.map Prod.fst).Nodup →
      List.Sorted
        (fun a b : String × TextEntry => a.2.last_used ≤ b.2.last_used)
        sorted →
      (evictOldest maxSize sorted cache).1.length ≤ maxSize
      ∧ ∀ p ∈ (evictOldest maxSize sorted cache).2,
          ∀ q ∈ (evictOldest maxSize sorted cache).1,
            p.2.last_used ≤ q.2.last_used := by
  intro sorted
  induction sorted with
  | nil =>
    intro cache hperm _ _
    have hc : cache = [] := List.perm_nil.mp hperm.symm
    subst hc
    simp [evictOldest]
  | cons e rest ih =>
    intro cache hperm hnodup hsort
    by_cases hlen : cache.length ≤ maxSize
    · constructor
      · simp [evictOldest, hlen]
      · simp [evictOldest, hlen]
    · have hem : e ∈ cache := hperm.subset (List.mem_cons_self e rest)
      have hpermK : rest.Perm (eraseKey e.1 cache) :=
        (hperm.trans (perm_eraseKey_of_mem cache e hnodup hem)).cons_inv
      have hnodup' : ((eraseKey e.1 cache).map Prod.fst).Nodup :=
        List.Nodup.sublist ((eraseKey_sublist e.1 cache).map Prod.fst) hnodup
      have hmin := (List.sorted_cons.mp hsort).1
      obtain ⟨ihlen, ihrel⟩ :=
        ih (eraseKey e.1 cache) hpermK hnodup' (List.Sorted.of_cons hsort)
      constructor
      · simpa [evictOldest, hlen] using ihlen
      · simp only [evictOldest, if_neg hlen]
        intro p hp q hq
        rcases List.mem_cons.mp hp with h | h
        · have hq' : q ∈ eraseKey e.1 cache :=
            evictOldest_subset maxSize rest _ hq
          rw [h]
          exact hmin q (hpermK.mem_iff.mpr hq')
        · exact ihrel p h q hq

/-- `_cleanup_text_cache` on a cache with nodup keys: count ends at or
under the limit, evicted entries are oldest-by-`last_used`. -/
theorem cleanup_text_cache_spec (maxSize : Nat)
    (cache : List (String × TextEntry))
    (hnodup : (cache.map Prod.fst).Nodup) :
    (cleanup_text_cache maxSize cache).1.length ≤ maxSize
    ∧ ∀ p ∈ (cleanup_text_cache maxSize cache).2,
        ∀ q ∈ (cleanup_text_cache maxSize cache).1,
          p.2.last_used ≤ q.2.last_used := by
  unfold cleanup_text_cache
  by_cases hlen : cache.length ≤ maxSize
  · constructor
    · simp [hlen]
    · simp [hlen]
  · simp only [if_neg hlen]
    haveI : IsTotal (String × TextEntry)
        (fun a b => a.2.last_used ≤ b.2.last_used) :=
      ⟨fun a b => le_total _ _⟩
    haveI : IsTrans (String × TextEntry)
        (fun a b => a.2.last_used ≤ b.2.last_used) :=
      ⟨fun a b c hab hbc => le_trans hab hbc⟩
    exact evictOldest_spec maxSize _ cache
      (List.perm_insertionSort _ cache) hnodup
      (List.sorted_insertionSort _ cache)

/-- C9: an insertion through the text-render path into a text cache with
no duplicate keys (as a Python dict guarantees) always leaves the entry
count at or under the configured limit (`text_cache_max_size`, default
500 in the source), and every entry the accompanying cleanup evicts is
oldest-by-last-access: its `last_used` is at most that of every
retained entry. -/
theorem text_cache_insert_bounded (maxSize : Nat)
    (cache : List (String × TextEntry)) (cache_key : String)
    (entry : TextEntry) (hnodup : (cache.map Prod.fst).Nodup) :
    (renderTextInsert maxSize cache cache_key entry).1.length ≤ maxSize
    ∧ ∀ p ∈ (renderTextInsert maxSize cache cache_key entry).2,
        ∀ q ∈ (renderTextInsert maxSize cache cache_key entry).1,
          p.2.last_used ≤ q.2.last_used := by
  unfold renderTextInsert
  exact cleanup_text_cache_spec maxSize _
    (setKey_keys_nodup cache_key entry cache hnodup)

/-- C9 witness: limit 1, two resident entries, one insertion. -/
theorem text_cache_insert_bounded_witness :
    (textCachePair.map Prod.fst).Nodup
    ∧ (renderTextInsert 1 textCachePair "c" entryC).1.length ≤ 1 :=
  ⟨by decide,
    (text_cache_insert_bounded 1 textCachePair "c" entryC (by decide)).1⟩

/-- C10: the easing table has exactly the twelve keys below — in
particular no `"ease_in_out_back"` — and an animation whose easing
identifier is not a key is still accepted by `animate_task`, runs with
linear easing (`lookupEasing` falls back to the `"linear"` entry), and
is driven to completion and removed by the update pass, with its
numeric property landed on the target value. -/
theorem unknown_easing_uses_linear (env : MathEnv) (e : String)
    (he : alookup e (create_easing_functions env) = none) :
    (create_easing_functions env).map Prod.fst
      = ["linear", "ease_in_quad", "ease_out_quad", "ease_in_out_quad",
         "ease_in_cubic", "ease_out_cubic", "ease_in_out_cubic",
         "ease_in_sine", "ease_out_sine", "ease_in_out_sine",
         "ease_in_back", "ease_out_back"]
    ∧ alookup "ease_in_out_back" (create_easing_functions env) = none
    ∧ (∀ q, lookupEasing env e q = q)
    ∧ (animate_task 0 ⟨animTasks0, []⟩ "obj" 2 [("x", PValue.num 100)] e
        none 0).1 = true
    ∧ update_animations env 2
        ((animate_task 0 ⟨animTasks0, []⟩ "obj" 2 [("x", PValue.num 100)] e
          none 0).2)
      = .ok ⟨[("obj", [("x", PValue.num 100)])], []⟩ := by
  have hlin : lookupEasing env e = fun t => t := by
    funext q
    unfold lookupEasing
    rw [he]
    rfl
  refine ⟨rfl, rfl, fun q => by rw [hlin], ?_, ?_⟩
  · norm_num [animate_task, animTasks0, collectStartValues, alookup]
  · norm_num [animate_task, animTasks0, collectStartValues, alookup, setKey,
      update_animations, updateAnimationsGo, processAnim, hlin,
      applyAnimProps, interpValue, eraseKey, animId_at_0]

/-- C10 witness: the easing string `"ease_in_out_back"`, absent from the
table, is accepted by `animate_task`. -/
theorem unknown_easing_uses_linear_witness :
    alookup "ease_in_out_back" (create_easing_functions mathEnv0) = none
    ∧ (animate_task 0 ⟨animTasks0, []⟩ "obj" 2 [("x", PValue.num 100)]
        "ease_in_out_back" none 0).1 = true :=
  ⟨rfl,
    (unknown_easing_uses_linear mathEnv0 "ease_in_out_back" rfl).2.2.2.1⟩

end RenderMgr
